import Mathlib

/-!
Shallow embedding of the BrainClone client-side graph store and 3D view.

Sources embedded here:
- the zustand graph store in `frontend/lib/api.ts` (setGraphData, addNode,
  removeNode, addLink, removeLink, getNeighbors and the view-state fields);
- the `Graph3D` component in `frontend/components/Graph3D.tsx`
  (filteredData, handleNodeClick, handleNodeHover, createSmoothPath).

Modelling conventions:
- JS arrays become `List`; JS `Set` results are modelled as lists observed
  through membership (insertion order preserved, duplicates irrelevant to
  every property stated below).
- Link endpoint fields are sometimes a raw id string and sometimes a live
  node object in the running system; every read site projects with
  `typeof l.source === 'string' ? l.source : l.source.id`, so the embedding
  stores the endpoint id string directly.
- `Math.random()`-driven choices are modelled by an arbitrary stream of
  natural numbers `pick : Nat → Nat`; a draw over a list of length `len`
  selects index `pick k % len`, which ranges over exactly the indices
  `Math.floor(Math.random() * len)` can produce when `len > 0`.
- Numeric fields (`val`, `strength`, coordinates) are modelled as `ℚ`.
-/

/-- Node type enum of the zod `GraphNodeSchema`: person | event | location. -/
inductive NodeType where
  | person
  | event
  | location
deriving DecidableEq

/-- Graph node (`GraphNode`): id, display name, type, numeric weight, color.
The open `metadata` record is never consulted by any operation modelled here
and is omitted. -/
structure GNode where
  id : String
  name : String
  type : NodeType
  val : ℚ
  color : String
deriving DecidableEq

/-- Graph link (`GraphLink`): endpoint ids, relationship label, optional
strength and color. Endpoints are stored as ids (see the module comment). -/
structure GLink where
  source : String
  target : String
  relationship : String
  strength : Option ℚ := none
  color : Option String := none
deriving DecidableEq

/-- Graph snapshot (`GraphData`): a node list and a link list. -/
structure GraphData where
  nodes : List GNode
  links : List GLink
deriving DecidableEq

/-- Store state (`GraphState` in the zustand store): the graph snapshot plus
the transient view state. The highlight `Set`s are modelled as lists. -/
structure GraphState where
  graphData : GraphData
  selectedNode : Option GNode
  hoveredNode : Option GNode
  highlightedNodes : List String
  highlightedLinks : List String
  filterByType : Option NodeType
  searchQuery : String
  isLoading : Bool
  error : Option String
deriving DecidableEq

/-- State with an empty graph and empty view state, as created by the store
initializer. -/
def initialState : GraphState where
  graphData := { nodes := [], links := [] }
  selectedNode := none
  hoveredNode := none
  highlightedNodes := []
  highlightedLinks := []
  filterByType := none
  searchQuery := ""
  isLoading := false
  error := none

/-- `setGraphData(data)`: the zustand `set` with a partial record merges into
the current state, so only `graphData` is replaced. The fire-and-forget
`syncToAPI(data)` call touches no store state and is outside the state
transition. -/
def setGraphData (st : GraphState) (data : GraphData) : GraphState :=
  { st with graphData := data }

/-- `addNode(node)`: appends to the node list. -/
def addNode (st : GraphState) (node : GNode) : GraphState :=
  { st with graphData :=
      { st.graphData with nodes := st.graphData.nodes ++ [node] } }

/-- `removeNode(nodeId)`: keeps the nodes whose id differs from `nodeId` and
the links neither of whose endpoint ids equals `nodeId`. -/
def removeNode (st : GraphState) (nodeId : String) : GraphState :=
  { st with graphData :=
      { nodes := st.graphData.nodes.filter (fun n => !(decide (n.id = nodeId)))
        links := st.graphData.links.filter (fun l =>
          !(decide (l.source = nodeId)) && !(decide (l.target = nodeId))) } }

/-- `addLink(link)`: appends to the link list, with no endpoint validation. -/
def addLink (st : GraphState) (link : GLink) : GraphState :=
  { st with graphData :=
      { st.graphData with links := st.graphData.links ++ [link] } }

/-- `removeLink(sourceId, targetId)`: keeps every link except those stored
with `source = sourceId` and `target = targetId`, in that stored
orientation (`source === sourceId && target === targetId`). -/
def removeLink (st : GraphState) (sourceId targetId : String) : GraphState :=
  { st with graphData :=
      { st.graphData with links := st.graphData.links.filter (fun l =>
          !(decide (l.source = sourceId) && decide (l.target = targetId))) } }

/-- `clearGraph()`: resets the graph to empty and clears the selection. -/
def clearGraph (st : GraphState) : GraphState :=
  { st with graphData := { nodes := [], links := [] }, selectedNode := none }

/-- `getNeighbors(nodeId)`: one pass over the links; a link whose source id
is `nodeId` contributes its target id, otherwise one whose target id is
`nodeId` contributes its source id; in both cases the link id
`source ++ "-" ++ target` (stored orientation) is recorded. The two JS `Set`
results are modelled as lists in traversal order. -/
def getNeighbors (links : List GLink) (nodeId : String) :
    List String × List String :=
  match links with
  | [] => ([], [])
  | l :: rest =>
    let r := getNeighbors rest nodeId
    if l.source = nodeId then
      (l.target :: r.1, (l.source ++ "-" ++ l.target) :: r.2)
    else if l.target = nodeId then
      (l.source :: r.1, (l.source ++ "-" ++ l.target) :: r.2)
    else r

/-- `handleNodeHover(node)` in `Graph3D`: on hover-enter it stores the
hovered node and replaces both highlight sets with the neighbor query
result; on hover-leave (`node = null`) it clears the hover and both
highlight sets. The DOM cursor change is not store state. -/
def handleNodeHover (st : GraphState) (node : Option GNode) : GraphState :=
  match node with
  | some n =>
    let nb := getNeighbors st.graphData.links n.id
    { st with hoveredNode := some n
              highlightedNodes := nb.1
              highlightedLinks := nb.2 }
  | none =>
    { st with hoveredNode := none
              highlightedNodes := []
              highlightedLinks := [] }

/-- Character-level test that the second list occurs at the head of the
first, mirroring the positional comparison inside the JS substring
primitive. -/
def chStarts : List Char → List Char → Bool
  | _, [] => true
  | [], _ :: _ => false
  | a :: as, b :: bs => (a == b) && chStarts as bs

/-- JS `String.prototype.includes` over character lists: some suffix of the
haystack starts with the needle. -/
def chHasSub : List Char → List Char → Bool
  | [], needle => needle.isEmpty
  | a :: t, needle => chStarts (a :: t) needle || chHasSub t needle

/-- `haystack.includes(needle)` on strings. -/
def strIncludes (haystack needle : String) : Bool :=
  chHasSub haystack.data needle.data

/-- ASCII lowercase mapping of one character. JS `toLowerCase()` agrees with
this on the ASCII range and no modelled property depends on characters
outside it. -/
def chLower (c : Char) : Char :=
  if 65 <= c.toNat ∧ c.toNat <= 90 then Char.ofNat (c.toNat + 32) else c

/-- `s.toLowerCase()`: the string lowercased character by character. -/
def strLower (s : String) : String :=
  ⟨s.data.map chLower⟩

/-- `filteredData` of `Graph3D`: an optional node-type filter, then an
optional case-insensitive name-substring filter (`if (searchQuery)` treats
only the empty string as false); after each node filter the link list is
restricted to links whose two endpoint ids occur among the surviving node
ids. -/
def filteredData (nodes0 : List GNode) (links0 : List GLink)
    (filterByType : Option NodeType) (searchQuery : String) :
    List GNode × List GLink :=
  let step1 : List GNode × List GLink :=
    match filterByType with
    | none => (nodes0, links0)
    | some t =>
      let nodes := nodes0.filter (fun n => decide (n.type = t))
      let nodeIds := nodes.map (fun n => n.id)
      (nodes, links0.filter (fun l =>
        decide (l.source ∈ nodeIds) && decide (l.target ∈ nodeIds)))
  if searchQuery = "" then step1
  else
    let nodes := step1.1.filter (fun n =>
      strIncludes (strLower n.name) (strLower searchQuery))
    let nodeIds := nodes.map (fun n => n.id)
    (nodes, step1.2.filter (fun l =>
      decide (l.source ∈ nodeIds) && decide (l.target ∈ nodeIds)))

/-- Camera transition issued through `cameraPosition(pos, lookAt, ms)`. -/
structure CameraMove where
  pos : ℚ × ℚ × ℚ
  lookAt : ℚ × ℚ × ℚ
  durationMs : ℚ
deriving DecidableEq

/-- Camera move of `handleNodeClick`: `distance` is fixed at 150 and the
duration at 1500 ms; `d` stands for the computed
`Math.hypot(node.x || 0, node.y || 0, node.z || 0)` (the theorems tie `d`
to the coordinates by `d ^ 2 = x ^ 2 + y ^ 2 + z ^ 2`). When `d = 0` the JS
arithmetic yields `150 / 0 = Infinity` and then `0 * Infinity = NaN` in
every coordinate of the target: no finite camera position exists, which the
embedding records as `none`. -/
def handleNodeClickCamera (x y z d : ℚ) : Option CameraMove :=
  if d = 0 then none
  else
    let distRatio : ℚ := 1 + 150 / d
    some { pos := (x * distRatio, y * distRatio, z * distRatio)
           lookAt := (x, y, z)
           durationMs := 1500 }

/-- Rotation of node types used by `createSmoothPath`:
`nodeTypes = ['person', 'event', 'location']` indexed by the running type
counter reduced mod 3 (the JS code keeps the counter already reduced; the
embedding keeps the raw counter and reduces at the use site, which yields
the same sequence of types). -/
def tourType (tIdx : Nat) : NodeType :=
  match tIdx % 3 with
  | 0 => NodeType.person
  | 1 => NodeType.event
  | _ => NodeType.location

/-- Nodes eligible for the next tour stop: of the type due at `tIdx` and not
yet visited (`!visited.has(node.id)`). -/
def availNodes (nodes : List GNode) (tIdx : Nat) (visited : List String) :
    List GNode :=
  nodes.filter (fun n =>
    decide (n.type = tourType tIdx) && !(decide (n.id ∈ visited)))

/-- Loop body of `createSmoothPath`: `fuel` counts the remaining iterations
of `for (let i = 0; i < Math.min(15, nodes.length); i++)`, `k` indexes the
next random draw, `tIdx` is the type-rotation counter. When no unvisited
node of the due type remains the slot is skipped; otherwise one eligible
node is drawn at random, appended to the path and marked visited. -/
def tourAux (nodes : List GNode) (pick : Nat → Nat) :
    Nat → Nat → Nat → List GNode → List String → List GNode
  | 0, _, _, path, _ => path
  | fuel + 1, k, tIdx, path, visited =>
    if h : availNodes nodes tIdx visited = [] then
      tourAux nodes pick fuel k (tIdx + 1) path visited
    else
      let c := (availNodes nodes tIdx visited).get
        ⟨pick k % (availNodes nodes tIdx visited).length,
         Nat.mod_lt _ (List.length_pos.mpr h)⟩
      tourAux nodes pick fuel (k + 1) (tIdx + 1) (path ++ [c])
        (visited ++ [c.id])

/-- `createSmoothPath(nodes)` of the guided-tour planner: one random initial
node of any type, then `Math.min(15, nodes.length)` rotation-driven slots.
The enclosing `startOverviewAnimation` returns before planning when the
graph has no nodes, modelled by the empty-list guard. -/
def createSmoothPath (nodes : List GNode) (pick : Nat → Nat) : List GNode :=
  if h : nodes = [] then []
  else
    let first := nodes.get
      ⟨pick 0 % nodes.length, Nat.mod_lt _ (List.length_pos.mpr h)⟩
    tourAux nodes pick (min 15 nodes.length) 1 0 [first] [first.id]

/-- Spec-side node predicate, written from the claim wording for comparison
with the code: the node survives when its type equals the filter (always
when the filter is unset) and its display name contains the query
case-insensitively (always when the query is empty). -/
def specNodeVisible (ft : Option NodeType) (q : String) (n : GNode) : Bool :=
  (match ft with
   | none => true
   | some t => decide (n.type = t)) &&
  (decide (q = "") || strIncludes (strLower n.name) (strLower q))

/-- Spec-side visible subgraph, written from the claim wording for
comparison with `filteredData`: the surviving nodes together with exactly
those links whose both endpoints survive the node filter. -/
def specVisibleSubgraph (nodes : List GNode) (links : List GLink)
    (ft : Option NodeType) (q : String) : List GNode × List GLink :=
  let ns := nodes.filter (specNodeVisible ft q)
  let ids := ns.map (fun n => n.id)
  (ns, links.filter (fun l =>
    decide (l.source ∈ ids) && decide (l.target ∈ ids)))

/-- Nodes surviving a type filter (proof-layer shorthand; unfolds to the
filter the code performs). -/
def typeFilter (t : NodeType) (nodes : List GNode) : List GNode :=
  nodes.filter (fun n => decide (n.type = t))

/-- Nodes surviving the case-insensitive name-substring filter. -/
def searchFilter (q : String) (nodes : List GNode) : List GNode :=
  nodes.filter (fun n => strIncludes (strLower n.name) (strLower q))

/-- Ids of a node list, as the code collects them into its `Set`. -/
def idsOf (ns : List GNode) : List String :=
  ns.map (fun n => n.id)

/-- Links whose both endpoint ids occur in the given id list. -/
def linksAmong (ids : List String) (ls : List GLink) : List GLink :=
  ls.filter (fun l => decide (l.source ∈ ids) && decide (l.target ∈ ids))


/-- Concrete node builder for the fixtures below. -/
def mkNode (i : String) (t : NodeType) : GNode :=
  { id := i, name := i, type := t, val := 1, color := "" }

/-- Concrete store state around a given snapshot, with empty view state. -/
def mkState (g : GraphData) : GraphState :=
  { initialState with graphData := g }

/-- Fixture node with id `a`. -/
def nodeA : GNode := { id := "a", name := "Alice", type := NodeType.person, val := 1, color := "#3B82F6" }

/-- Fixture node with id `b`. -/
def nodeB : GNode := { id := "b", name := "Bob", type := NodeType.person, val := 1, color := "#3B82F6" }

/-- Fixture link stored with source `a`, target `b`. -/
def linkAB : GLink := { source := "a", target := "b", relationship := "KNOWS" }

/-- Fixture link stored with source `b`, target `a`. -/
def linkBA : GLink := { source := "b", target := "a", relationship := "KNOWS" }

/-- Fixture link whose target id `ghost` has no node in the fixtures. -/
def danglingLink : GLink := { source := "a", target := "ghost", relationship := "KNOWS" }

/-- Fixture state holding nodes `a`, `b` and the single link `b → a`. -/
def stateBA : GraphState := mkState { nodes := [nodeA, nodeB], links := [linkBA] }

/-- Fixture state with a selection, a hover and non-empty highlight sets. -/
def stateWithView : GraphState :=
  { graphData := { nodes := [nodeA, nodeB], links := [linkAB] }
    selectedNode := some nodeA
    hoveredNode := some nodeB
    highlightedNodes := ["a"]
    highlightedLinks := ["a-b"]
    filterByType := some NodeType.person
    searchQuery := "ali"
    isLoading := false
    error := none }

/-- Fixture snapshot replacing the graph in the frame-effect counterexample. -/
def replacementData : GraphData :=
  { nodes := [nodeB], links := [] }

/-- Fixture for the tour-length counterexample: six persons, five events and
five locations, sixteen nodes in all. -/
def tourCexNodes : List GNode :=
  [mkNode "p1" NodeType.person, mkNode "p2" NodeType.person,
   mkNode "p3" NodeType.person, mkNode "p4" NodeType.person,
   mkNode "p5" NodeType.person, mkNode "p6" NodeType.person,
   mkNode "e1" NodeType.event, mkNode "e2" NodeType.event,
   mkNode "e3" NodeType.event, mkNode "e4" NodeType.event,
   mkNode "e5" NodeType.event,
   mkNode "l1" NodeType.location, mkNode "l2" NodeType.location,
   mkNode "l3" NodeType.location, mkNode "l4" NodeType.location,
   mkNode "l5" NodeType.location]

/-- Fixture nodes for the search scenario: the demo `Sarah Chen` node plus a
second person she is linked to. -/
def sarahNode : GNode :=
  { id := "sarah", name := "Sarah Chen", type := NodeType.person, val := 1, color := "#3B82F6" }

/-- Fixture companion node for the search scenario. -/
def alexNode : GNode :=
  { id := "alex", name := "Alex Kim", type := NodeType.person, val := 1, color := "#3B82F6" }

/-- Fixture link between the two search-scenario nodes. -/
def sarahAlexLink : GLink :=
  { source := "sarah", target := "alex", relationship := "INTRODUCED_TO" }

/-- C2: after `removeNode(id)` the graph contains no node with that id and
no link incident to that id, while every other node and every link not
incident to `id` is retained. -/
theorem removeNode_integrity (st : GraphState) (nodeId : String) :
    (∀ n, n ∈ (removeNode st nodeId).graphData.nodes ↔
      n ∈ st.graphData.nodes ∧ n.id ≠ nodeId) ∧
    (∀ l, l ∈ (removeNode st nodeId).graphData.links ↔
      l ∈ st.graphData.links ∧ l.source ≠ nodeId ∧ l.target ≠ nodeId) := by
  constructor
  · intro n
    simp [removeNode, List.mem_filter]
  · intro l
    simp [removeNode, List.mem_filter, and_assoc]

/-- C3 counterexample: a link stored as `source = b, target = a` is not
removed by `removeLink(a, b)`: the store is unchanged. -/
theorem removeLink_reversed_not_removed :
    (removeLink stateBA "a" "b").graphData.links = [linkBA] := by decide

/-- C3 amended: `removeLink(sourceId, targetId)` keeps a link exactly when
it is in the store and is not stored with `source = sourceId` and
`target = targetId` in that orientation; the reversed orientation is
retained. -/
theorem removeLink_mem (st : GraphState) (a b : String) (l : GLink) :
    l ∈ (removeLink st a b).graphData.links ↔
      l ∈ st.graphData.links ∧ ¬(l.source = a ∧ l.target = b) := by
  simp [removeLink, List.mem_filter, not_and, Decidable.not_imp_not]
  tauto

/-- C4 counterexample: a full snapshot replacement through `setGraphData`
leaves a previous selection and previous highlight sets in place, so the
view state is not re-initialized. -/
theorem setGraphData_no_reset :
    ¬((setGraphData stateWithView replacementData).selectedNode = none ∧
      (setGraphData stateWithView replacementData).highlightedNodes = [] ∧
      (setGraphData stateWithView replacementData).highlightedLinks = []) := by
  decide

/-- C4 amended: `setGraphData` replaces exactly the graph snapshot; the
selection, hover, both highlight sets, the type filter and the search query
are all left unchanged. -/
theorem setGraphData_frame (st : GraphState) (data : GraphData) :
    (setGraphData st data).graphData = data ∧
    (setGraphData st data).selectedNode = st.selectedNode ∧
    (setGraphData st data).hoveredNode = st.hoveredNode ∧
    (setGraphData st data).highlightedNodes = st.highlightedNodes ∧
    (setGraphData st data).highlightedLinks = st.highlightedLinks ∧
    (setGraphData st data).filterByType = st.filterByType ∧
    (setGraphData st data).searchQuery = st.searchQuery :=
  ⟨rfl, rfl, rfl, rfl, rfl, rfl, rfl⟩

/-- C8: hover-enter on any node followed by hover-leave leaves both
highlight sets empty, whatever the prior state was. -/
theorem hover_unhover_roundtrip (st : GraphState) (n : GNode) :
    (handleNodeHover (handleNodeHover st (some n)) none).highlightedNodes = [] ∧
    (handleNodeHover (handleNodeHover st (some n)) none).highlightedLinks = [] :=
  ⟨rfl, rfl⟩

/-- Membership in the node component of `getNeighbors`: exactly the targets
of links whose source is the queried id, plus the sources of links whose
target is the queried id and whose source is not (the else-if branch). -/
theorem mem_getNeighbors_fst (links : List GLink) (nid m : String) :
    m ∈ (getNeighbors links nid).1 ↔
      ∃ l ∈ links, (l.source = nid ∧ m = l.target) ∨
        (l.source ≠ nid ∧ l.target = nid ∧ m = l.source) := by
  induction links with
  | nil => simp [getNeighbors]
  | cons l rest ih =>
    by_cases h1 : l.source = nid
    · simp [getNeighbors, h1, ih]
    · by_cases h2 : l.target = nid
      · simp [getNeighbors, h1, h2, ih]
      · simp [getNeighbors, h1, h2, ih]

/-- Membership in the link component of `getNeighbors`: the ids
`source ++ "-" ++ target` of the links incident to the queried id in either
orientation. -/
theorem mem_getNeighbors_snd (links : List GLink) (nid s : String) :
    s ∈ (getNeighbors links nid).2 ↔
      ∃ l ∈ links, (l.source = nid ∨ l.target = nid) ∧
        s = l.source ++ "-" ++ l.target := by
  induction links with
  | nil => simp [getNeighbors]
  | cons l rest ih =>
    by_cases h1 : l.source = nid
    · simp [getNeighbors, h1, ih]
    · by_cases h2 : l.target = nid
      · simp [getNeighbors, h1, h2, ih]
      · simp [getNeighbors, h1, h2, ih]

/-- C9: the neighbor relation is symmetric: whenever `b` is in the node set
of `getNeighbors(a)`, `a` is in the node set of `getNeighbors(b)`. -/
theorem getNeighbors_symm (links : List GLink) (a b : String)
    (h : b ∈ (getNeighbors links a).1) : a ∈ (getNeighbors links b).1 := by
  rw [mem_getNeighbors_fst] at h ⊢
  obtain ⟨l, hl, hcase⟩ := h
  refine ⟨l, hl, ?_⟩
  rcases hcase with ⟨hs, hb⟩ | ⟨hns, ht, hb⟩
  · by_cases hsb : l.source = b
    · left
      exact ⟨hsb, ((hs.symm.trans hsb).trans hb).symm.symm⟩
    · right
      exact ⟨hsb, hb.symm, hs.symm⟩
  · left
    exact ⟨hb.symm, ht.symm⟩

/-- C9 witness: over the single stored link `a → b`, node `b` has neighbor
`a` because `a` has neighbor `b`. -/
theorem getNeighbors_symm_instance :
    "a" ∈ (getNeighbors [linkAB] "b").1 :=
  getNeighbors_symm [linkAB] "a" "b" (by decide)

/-- C10: after hover-enter on a node, the highlighted node set holds exactly
the opposite endpoints of the links incident to it (the node itself only
through a self-loop), and the highlighted link set holds exactly the ids
`source ++ "-" ++ target` of the incident links in stored orientation. -/
theorem hoverEnter_highlight_sets (st : GraphState) (N : GNode) :
    (∀ m, m ∈ (handleNodeHover st (some N)).highlightedNodes ↔
      ∃ l ∈ st.graphData.links,
        (l.source = N.id ∧ m = l.target) ∨ (l.target = N.id ∧ m = l.source)) ∧
    ((N.id ∈ (handleNodeHover st (some N)).highlightedNodes) ↔
      ∃ l ∈ st.graphData.links, l.source = N.id ∧ l.target = N.id) ∧
    (∀ s, s ∈ (handleNodeHover st (some N)).highlightedLinks ↔
      ∃ l ∈ st.graphData.links, (l.source = N.id ∨ l.target = N.id) ∧
        s = l.source ++ "-" ++ l.target) := by
  have hnodes : ∀ m, m ∈ (handleNodeHover st (some N)).highlightedNodes ↔
      ∃ l ∈ st.graphData.links,
        (l.source = N.id ∧ m = l.target) ∨ (l.target = N.id ∧ m = l.source) := by
    intro m
    show m ∈ (getNeighbors st.graphData.links N.id).1 ↔ _
    rw [mem_getNeighbors_fst]
    refine exists_congr fun l => and_congr_right fun _ => ?_
    constructor
    · rintro (⟨hs, hm⟩ | ⟨_, ht, hm⟩)
      · exact Or.inl ⟨hs, hm⟩
      · exact Or.inr ⟨ht, hm⟩
    · rintro (⟨hs, hm⟩ | ⟨ht, hm⟩)
      · exact Or.inl ⟨hs, hm⟩
      · by_cases hs : l.source = N.id
        · exact Or.inl ⟨hs, hm.trans (hs.trans ht.symm)⟩
        · exact Or.inr ⟨hs, ht, hm⟩
  refine ⟨hnodes, ?_, ?_⟩
  · rw [hnodes N.id]
    refine exists_congr fun l => and_congr_right fun _ => ?_
    constructor
    · rintro (⟨hs, hm⟩ | ⟨ht, hm⟩)
      · exact ⟨hs, hm.symm⟩
      · exact ⟨hm.symm, ht⟩
    · rintro ⟨hs, ht⟩
      exact Or.inl ⟨hs, ht.symm⟩
  · intro s
    show s ∈ (getNeighbors st.graphData.links N.id).2 ↔ _
    exact mem_getNeighbors_snd st.graphData.links N.id s

/-- Projecting ids commutes with dropping nodes: an id found among a
filtered node list is found among the full list. -/
theorem mem_map_id_of_filter (ns : List GNode) (p : GNode → Bool) (x : String)
    (h : x ∈ (ns.filter p).map (fun n => n.id)) :
    x ∈ ns.map (fun n => n.id) := by
  simp only [List.mem_map] at h ⊢
  obtain ⟨n, hn, rfl⟩ := h
  exact ⟨n, List.mem_of_mem_filter hn, rfl⟩

/-- C5 counterexample: with no type filter and an empty query, a link whose
target id has no node in the snapshot passes through `filteredData`
unchanged, so it is observable downstream. -/
theorem dangling_visible_cex :
    (filteredData [nodeA] [danglingLink] none "").2 = [danglingLink] ∧
    "ghost" ∉ [nodeA].map (fun n => n.id) := by
  decide

/-- Unfolding equation for `filteredData` with no type filter. -/
theorem filteredData_none_eq (nodes : List GNode) (links : List GLink)
    (q : String) :
    filteredData nodes links none q =
      if q = "" then (nodes, links)
      else (searchFilter q nodes,
            linksAmong (idsOf (searchFilter q nodes)) links) := rfl

/-- Unfolding equation for `filteredData` with a type filter. -/
theorem filteredData_some_eq (nodes : List GNode) (links : List GLink)
    (t : NodeType) (q : String) :
    filteredData nodes links (some t) q =
      if q = "" then
        (typeFilter t nodes, linksAmong (idsOf (typeFilter t nodes)) links)
      else
        (searchFilter q (typeFilter t nodes),
         linksAmong (idsOf (searchFilter q (typeFilter t nodes)))
           (linksAmong (idsOf (typeFilter t nodes)) links)) := rfl

/-- Unfolding equation for the spec-side visible subgraph. -/
theorem specVisibleSubgraph_eq (nodes : List GNode) (links : List GLink)
    (ft : Option NodeType) (q : String) :
    specVisibleSubgraph nodes links ft q =
      (nodes.filter (specNodeVisible ft q),
       linksAmong (idsOf (nodes.filter (specNodeVisible ft q))) links) := rfl

/-- Membership in `linksAmong`. -/
theorem mem_linksAmong (ids : List String) (ls : List GLink) (lk : GLink) :
    lk ∈ linksAmong ids ls ↔ lk ∈ ls ∧ lk.source ∈ ids ∧ lk.target ∈ ids := by
  simp [linksAmong, List.mem_filter, and_assoc]

/-- C5 amended: a snapshot with a dangling link is never rejected —
`setGraphData` stores it verbatim and `addLink` appends unconditionally —
and a dangling link is excluded from the visible subgraph exactly while a
type filter or a non-empty search query is active; with neither active the
stored lists pass through unchanged, dangling links included. -/
theorem dangling_link_policy (st : GraphState) (nodes : List GNode)
    (links : List GLink) (lk0 : GLink) (t : NodeType) (q : String) :
    (setGraphData st { nodes := nodes, links := links }).graphData =
      { nodes := nodes, links := links } ∧
    (addLink st lk0).graphData.links = st.graphData.links ++ [lk0] ∧
    filteredData nodes links none "" = (nodes, links) ∧
    (∀ lk ∈ (filteredData nodes links (some t) q).2,
      lk.source ∈ (filteredData nodes links (some t) q).1.map (fun n => n.id) ∧
      lk.target ∈ (filteredData nodes links (some t) q).1.map (fun n => n.id)) ∧
    (q ≠ "" → ∀ lk ∈ (filteredData nodes links none q).2,
      lk.source ∈ (filteredData nodes links none q).1.map (fun n => n.id) ∧
      lk.target ∈ (filteredData nodes links none q).1.map (fun n => n.id)) := by
  refine ⟨rfl, rfl, rfl, ?_, ?_⟩
  · rw [filteredData_some_eq]
    by_cases hq : q = ""
    · rw [if_pos hq]
      intro lk hlk
      have h := (mem_linksAmong _ _ lk).mp hlk
      exact ⟨h.2.1, h.2.2⟩
    · rw [if_neg hq]
      intro lk hlk
      have h := (mem_linksAmong _ _ lk).mp hlk
      exact ⟨h.2.1, h.2.2⟩
  · intro hq
    rw [filteredData_none_eq, if_neg hq]
    intro lk hlk
    have h := (mem_linksAmong _ _ lk).mp hlk
    exact ⟨h.2.1, h.2.2⟩

/-- C6 counterexample: on a snapshot holding a dangling link, with no
filter and an empty query, the visible subgraph computed by the code keeps
the dangling link while the claimed characterization (links whose both
endpoints survive the node filter) drops it. -/
theorem filteredData_dangling_cex :
    filteredData [nodeA] [danglingLink] none "" ≠
      specVisibleSubgraph [nodeA] [danglingLink] none "" := by
  decide

/-- C6 amended: on snapshots whose links all reference node ids present in
the snapshot, the visible subgraph equals the claimed characterization:
the nodes surviving the type filter and the case-insensitive name-substring
filter, with exactly the links whose both endpoints survive; the name
`Sarah Chen` matches the query `sarah` and not the query `Sarahh`. -/
theorem filteredData_matches_spec (nodes : List GNode) (links : List GLink)
    (ft : Option NodeType) (q : String)
    (wf : ∀ l ∈ links, l.source ∈ nodes.map (fun n => n.id) ∧
      l.target ∈ nodes.map (fun n => n.id)) :
    filteredData nodes links ft q = specVisibleSubgraph nodes links ft q ∧
    strIncludes (strLower "Sarah Chen") (strLower "sarah") = true ∧
    strIncludes (strLower "Sarah Chen") (strLower "Sarahh") = false := by
  refine ⟨?_, by decide, by decide⟩
  cases ft with
  | none =>
    rw [filteredData_none_eq, specVisibleSubgraph_eq]
    by_cases hq : q = ""
    · rw [if_pos hq]
      subst hq
      have hns : nodes.filter (specNodeVisible none "") = nodes :=
        List.filter_eq_self.mpr (fun n _ => by simp [specNodeVisible])
      have hl : linksAmong (idsOf nodes) links = links :=
        List.filter_eq_self.mpr (fun l hl => by
          simp [idsOf, (wf l hl).1, (wf l hl).2])
      rw [hns, hl]
    · rw [if_neg hq]
      have hns : nodes.filter (specNodeVisible none q) =
          nodes.filter (fun n => strIncludes (strLower n.name) (strLower q)) :=
        List.filter_congr (fun n _ => by simp [specNodeVisible, hq])
      rw [hns]
      rfl
  | some t =>
    rw [filteredData_some_eq, specVisibleSubgraph_eq]
    by_cases hq : q = ""
    · rw [if_pos hq]
      subst hq
      have hns : nodes.filter (specNodeVisible (some t) "") =
          nodes.filter (fun n => decide (n.type = t)) :=
        List.filter_congr (fun n _ => by simp [specNodeVisible])
      rw [hns]
      rfl
    · rw [if_neg hq]
      have h1 : searchFilter q (typeFilter t nodes) =
          nodes.filter (fun n =>
            strIncludes (strLower n.name) (strLower q) && decide (n.type = t)) :=
        List.filter_filter _ _
      have h2 : nodes.filter (specNodeVisible (some t) q) =
          nodes.filter (fun n =>
            strIncludes (strLower n.name) (strLower q) && decide (n.type = t)) :=
        List.filter_congr (fun n _ => by
          simp [specNodeVisible, hq, Bool.and_comm])
      have hns : nodes.filter (specNodeVisible (some t) q) =
          searchFilter q (typeFilter t nodes) := h2.trans h1.symm
      have hsub : ∀ x : String,
          x ∈ idsOf (searchFilter q (typeFilter t nodes)) →
            x ∈ idsOf (typeFilter t nodes) :=
        fun x hx => mem_map_id_of_filter _ _ x hx
      have hls : linksAmong (idsOf (searchFilter q (typeFilter t nodes)))
            (linksAmong (idsOf (typeFilter t nodes)) links) =
          linksAmong (idsOf (searchFilter q (typeFilter t nodes))) links := by
        have hff : linksAmong (idsOf (searchFilter q (typeFilter t nodes)))
              (linksAmong (idsOf (typeFilter t nodes)) links) =
            links.filter (fun l =>
              (decide (l.source ∈ idsOf (searchFilter q (typeFilter t nodes))) &&
               decide (l.target ∈ idsOf (searchFilter q (typeFilter t nodes)))) &&
              (decide (l.source ∈ idsOf (typeFilter t nodes)) &&
               decide (l.target ∈ idsOf (typeFilter t nodes)))) :=
          List.filter_filter _ _
        rw [hff]
        refine List.filter_congr (fun l _ => ?_)
        by_cases h2 : (decide (l.source ∈ idsOf (searchFilter q (typeFilter t nodes))) &&
            decide (l.target ∈ idsOf (searchFilter q (typeFilter t nodes)))) = true
        · rw [h2, Bool.true_and]
          simp only [Bool.and_eq_true, decide_eq_true_eq] at h2 ⊢
          exact ⟨hsub _ h2.1, hsub _ h2.2⟩
        · rw [Bool.not_eq_true] at h2
          rw [h2, Bool.false_and]
      rw [hns, hls]

/-- C7 counterexample: for a node sitting exactly at the origin the hypot
distance is 0 and the click-to-focus arithmetic has no finite camera
target (in JS: `150 / 0 = Infinity`, then `0 * Infinity = NaN`); there is
no fallback. -/
theorem handleNodeClick_origin_cex :
    handleNodeClickCamera 0 0 0 0 = none ∧
    (0 : ℚ) ^ 2 = 0 ^ 2 + 0 ^ 2 + 0 ^ 2 := by
  constructor
  · norm_num [handleNodeClickCamera]
  · norm_num

/-- C7 amended: with `d` the hypot of the node position, the camera move
exists exactly when the node is not at the origin, and then it goes to the
position scaled componentwise by `1 + 150 / d`, looking at the node, over
the fixed 1500 ms duration; at the origin the computation has no
well-defined target. -/
theorem handleNodeClickCamera_spec (x y z d : ℚ)
    (hd : d ^ 2 = x ^ 2 + y ^ 2 + z ^ 2) :
    (handleNodeClickCamera x y z d = none ↔ x = 0 ∧ y = 0 ∧ z = 0) ∧
    (∀ m, handleNodeClickCamera x y z d = some m →
      m.pos = (x * (1 + 150 / d), y * (1 + 150 / d), z * (1 + 150 / d)) ∧
      m.lookAt = (x, y, z) ∧ m.durationMs = 1500) := by
  have hzero : d = 0 ↔ x = 0 ∧ y = 0 ∧ z = 0 := by
    constructor
    · intro h
      rw [h] at hd
      have hx : x ^ 2 = 0 := by nlinarith [sq_nonneg x, sq_nonneg y, sq_nonneg z]
      have hy : y ^ 2 = 0 := by nlinarith [sq_nonneg x, sq_nonneg y, sq_nonneg z]
      have hz : z ^ 2 = 0 := by nlinarith [sq_nonneg x, sq_nonneg y, sq_nonneg z]
      exact ⟨(pow_eq_zero_iff two_ne_zero).mp hx,
             (pow_eq_zero_iff two_ne_zero).mp hy,
             (pow_eq_zero_iff two_ne_zero).mp hz⟩
    · rintro ⟨hx, hy, hz⟩
      rw [hx, hy, hz] at hd
      have hd2 : d ^ 2 = 0 := by rw [hd]; norm_num
      exact (pow_eq_zero_iff two_ne_zero).mp hd2
  have hnone : handleNodeClickCamera x y z d = none ↔ d = 0 := by
    unfold handleNodeClickCamera
    by_cases h : d = 0
    · rw [if_pos h]
      simp [h]
    · rw [if_neg h]
      simp [h]
  constructor
  · exact hnone.trans hzero
  · intro m hm
    unfold handleNodeClickCamera at hm
    split at hm
    · exact absurd hm (by simp)
    · obtain rfl := Option.some.inj hm
      exact ⟨rfl, rfl, rfl⟩

/-- C7 witness: a node at position `(3, 0, 4)` has hypot 5 and a
well-defined camera move. -/
theorem handleNodeClickCamera_spec_instance :
    handleNodeClickCamera 3 0 4 5 = none ↔
      (3 : ℚ) = 0 ∧ (0 : ℚ) = 0 ∧ (4 : ℚ) = 0 :=
  (handleNodeClickCamera_spec 3 0 4 5 (by norm_num)).1

/-- Nodes drawn from `availNodes` are not yet visited. -/
theorem availNodes_not_visited (nodes : List GNode) (tIdx : Nat)
    (visited : List String) (c : GNode)
    (hc : c ∈ availNodes nodes tIdx visited) : c.id ∉ visited := by
  simp only [availNodes, List.mem_filter, Bool.and_eq_true,
    Bool.not_eq_true', decide_eq_false_iff_not] at hc
  exact hc.2.2

/-- One step of `tourAux` either skips the slot (no eligible node) or
appends one eligible node and marks it visited. -/
theorem tourAux_step (nodes : List GNode) (pick : Nat → Nat) (fuel k tIdx : Nat)
    (path : List GNode) (visited : List String) :
    (availNodes nodes tIdx visited = [] ∧
      tourAux nodes pick (fuel + 1) k tIdx path visited =
        tourAux nodes pick fuel k (tIdx + 1) path visited) ∨
    (∃ c ∈ availNodes nodes tIdx visited,
      tourAux nodes pick (fuel + 1) k tIdx path visited =
        tourAux nodes pick fuel (k + 1) (tIdx + 1) (path ++ [c])
          (visited ++ [c.id])) := by
  by_cases h : availNodes nodes tIdx visited = []
  · left
    exact ⟨h, by rw [tourAux, dif_pos h]⟩
  · right
    exact ⟨_, List.get_mem _ _ _, by rw [tourAux, dif_neg h]⟩

/-- The ids of the path built by `tourAux` stay duplicate-free when the
visited list is exactly the ids of the path so far and is duplicate-free. -/
theorem tourAux_nodup (nodes : List GNode) (pick : Nat → Nat) :
    ∀ fuel k tIdx (path : List GNode) (visited : List String),
      visited = path.map (fun n => n.id) → visited.Nodup →
      ((tourAux nodes pick fuel k tIdx path visited).map
        (fun n => n.id)).Nodup := by
  intro fuel
  induction fuel with
  | zero =>
    intro k tIdx path visited hv hnd
    rw [tourAux, ← hv]
    exact hnd
  | succ fuel ih =>
    intro k tIdx path visited hv hnd
    rcases tourAux_step nodes pick fuel k tIdx path visited with
      ⟨_, heq⟩ | ⟨c, hc, heq⟩
    · rw [heq]
      exact ih k (tIdx + 1) path visited hv hnd
    · rw [heq]
      refine ih (k + 1) (tIdx + 1) (path ++ [c]) (visited ++ [c.id]) ?_ ?_
      · simp [hv]
      · have hnv : c.id ∉ visited := availNodes_not_visited _ _ _ _ hc
        simp [List.nodup_append, hnd, hnv]

/-- The path grows by at most one node per remaining loop iteration. -/
theorem tourAux_length (nodes : List GNode) (pick : Nat → Nat) :
    ∀ fuel k tIdx (path : List GNode) (visited : List String),
      (tourAux nodes pick fuel k tIdx path visited).length ≤
        path.length + fuel := by
  intro fuel
  induction fuel with
  | zero =>
    intro k tIdx path visited
    rw [tourAux]
    omega
  | succ fuel ih =>
    intro k tIdx path visited
    rcases tourAux_step nodes pick fuel k tIdx path visited with
      ⟨_, heq⟩ | ⟨c, _, heq⟩
    · rw [heq]
      exact le_trans (ih k (tIdx + 1) path visited) (by omega)
    · rw [heq]
      have h := ih (k + 1) (tIdx + 1) (path ++ [c]) (visited ++ [c.id])
      simp only [List.length_append, List.length_cons, List.length_nil] at h
      omega

/-- When every slot type is exhausted the loop only skips and the path is
returned unchanged. -/
theorem tourAux_stuck (nodes : List GNode) (pick : Nat → Nat)
    (path : List GNode) (visited : List String)
    (h : ∀ tIdx, availNodes nodes tIdx visited = []) :
    ∀ fuel k tIdx, tourAux nodes pick fuel k tIdx path visited = path := by
  intro fuel
  induction fuel with
  | zero => intro k tIdx; rw [tourAux]
  | succ fuel ih =>
    intro k tIdx
    rw [tourAux, dif_pos (h tIdx)]
    exact ih k (tIdx + 1)

/-- Unfolding equation for `createSmoothPath` on a non-empty node list. -/
theorem createSmoothPath_eq (nodes : List GNode) (pick : Nat → Nat)
    (h : nodes ≠ []) :
    createSmoothPath nodes pick =
      tourAux nodes pick (min 15 nodes.length) 1 0
        [nodes.get ⟨pick 0 % nodes.length, Nat.mod_lt _ (List.length_pos.mpr h)⟩]
        [(nodes.get ⟨pick 0 % nodes.length,
          Nat.mod_lt _ (List.length_pos.mpr h)⟩).id] := by
  unfold createSmoothPath
  rw [dif_neg h]

/-- C1 counterexample: on a sixteen-node graph (six persons, five events,
five locations, a person drawn first) with the random stream that always
draws index 0, the planner produces a path of sixteen stops, exceeding the
claimed bound of fifteen. -/
theorem createSmoothPath_length_16 :
    ¬((createSmoothPath tourCexNodes (fun _ => 0)).length ≤ 15) := by
  decide

/-- C1 amended: for every non-empty node list and every random stream, the
planned path has no duplicate node ids, has at most
`1 + min 15 nodes.length ≤ 16` stops (one initial node plus up to fifteen
rotation slots), and on a single-node graph it has exactly one stop; the
planner is a structurally terminating loop. -/
theorem createSmoothPath_spec (nodes : List GNode) (pick : Nat → Nat)
    (hne : nodes ≠ []) :
    ((createSmoothPath nodes pick).map (fun n => n.id)).Nodup ∧
    (createSmoothPath nodes pick).length ≤ 1 + min 15 nodes.length ∧
    (createSmoothPath nodes pick).length ≤ 16 ∧
    (nodes.length = 1 → (createSmoothPath nodes pick).length = 1) := by
  have hlen : (createSmoothPath nodes pick).length ≤ 1 + min 15 nodes.length := by
    rw [createSmoothPath_eq nodes pick hne]
    have h := tourAux_length nodes pick (min 15 nodes.length) 1 0
      [nodes.get ⟨pick 0 % nodes.length, Nat.mod_lt _ (List.length_pos.mpr hne)⟩]
      [(nodes.get ⟨pick 0 % nodes.length,
        Nat.mod_lt _ (List.length_pos.mpr hne)⟩).id]
    simpa using h
  refine ⟨?_, hlen, ?_, ?_⟩
  · rw [createSmoothPath_eq nodes pick hne]
    refine tourAux_nodup nodes pick (min 15 nodes.length) 1 0 _ _ ?_ ?_
    · simp
    · simp
  · have : min 15 nodes.length ≤ 15 := Nat.min_le_left _ _
    omega
  · intro h1
    obtain ⟨a, rfl⟩ := List.length_eq_one.mp h1
    rw [createSmoothPath_eq [a] pick hne]
    rw [tourAux_stuck [a] pick _ _ (fun tIdx => by
      have : ([a].get ⟨pick 0 % [a].length,
          Nat.mod_lt _ (List.length_pos.mpr hne)⟩) = a := by
        simp [Nat.mod_one]
      rw [this]
      simp [availNodes])]
    rfl

/-- C1 witness: on the single-node graph holding only `nodeA`, the planned
path has one stop and duplicate-free ids. -/
theorem createSmoothPath_spec_instance :
    ((createSmoothPath [nodeA] (fun _ => 0)).map (fun n => n.id)).Nodup ∧
    (createSmoothPath [nodeA] (fun _ => 0)).length = 1 := by
  have h := createSmoothPath_spec [nodeA] (fun _ => 0) (by simp)
  exact ⟨h.1, h.2.2.2 rfl⟩

/-- C6 witness: the demo pair `Sarah Chen` and `Alex Kim` with their link is
a well-formed snapshot, and searching `sarah` yields the claimed visible
subgraph. -/
theorem filteredData_matches_spec_instance :
    filteredData [sarahNode, alexNode] [sarahAlexLink] none "sarah" =
      specVisibleSubgraph [sarahNode, alexNode] [sarahAlexLink] none "sarah" ∧
    strIncludes (strLower "Sarah Chen") (strLower "sarah") = true ∧
    strIncludes (strLower "Sarah Chen") (strLower "Sarahh") = false :=
  filteredData_matches_spec [sarahNode, alexNode] [sarahAlexLink] none "sarah"
    (by decide)
